import Mathlib

/-!
Shallow embedding of the live-view coordination core of `mdview` (main.go):
the source-combining loops of `run` and `watchFiles`, the polling change
detector of `watchFiles`, the notify fan-out of `notifyClients`, the
viewer-drain shutdown goroutine of `run`, and the snapshot store guarded by
`mu`.  Bytes are modelled as `List Nat` (one entry per byte), modification
times as `Nat` (Go `time.Time.After` is strict `<` on this scale), paths as
`String`.  `filepath.Abs` is modelled as the identity on paths; a failing
`Abs` is folded into a failing initial `os.Stat` (both make `watchFiles`
skip the path with `continue`).
-/

namespace Mdview

/-- Bytes appended between sources by the combining loops: `'\n', '\n'`
(main.go lines 104-106 and 392-394). -/
def sepBytes : List Nat := [10, 10]

/-- One iteration of the combining loop body shared by `run` (startup) and
`watchFiles` (refresh), given the bytes read for one source:
`if len(combined) > 0 { combined = append(combined, '\n', '\n') };
combined = append(combined, data...)`. -/
def combineStep (combined data : List Nat) : List Nat :=
  (if combined.length > 0 then combined ++ sepBytes else combined) ++ data

/-- Combining a list of successfully read sources in order (the loop of
`run` lines 98-108 when every read succeeds, and of `watchFiles` lines
386-396 restricted to the successful reads). -/
def combineSources (srcs : List (List Nat)) : List Nat :=
  srcs.foldl combineStep []

/-- One iteration of the refresh loop of `watchFiles` (lines 387-396):
`none` is a failed `os.ReadFile`, skipped by `continue`. -/
def combineStepOpt (combined : List Nat) (r : Option (List Nat)) : List Nat :=
  match r with
  | none => combined
  | some data => combineStep combined data

/-- The refresh combine of `watchFiles` (lines 386-396): each element is the
result of `os.ReadFile` for one path of the source set, in order. -/
def combineLoop (reads : List (Option (List Nat))) : List Nat :=
  reads.foldl combineStepOpt []

/-- Accumulator form of the startup read loop of `run` (lines 98-108): a
failed read makes `run` return an error immediately. -/
def combineStartupAux : List Nat → List (Option (List Nat)) → Option (List Nat)
  | combined, [] => some combined
  | _, none :: _ => none
  | combined, some data :: rest => combineStartupAux (combineStep combined data) rest

/-- The startup read loop of `run` (lines 98-108): `none` means `run`
returned `fmt.Errorf("reading %s: %w", ...)` before any server state was
created. -/
def combineStartup (reads : List (Option (List Nat))) : Option (List Nat) :=
  combineStartupAux [] reads

/-- Written from the spec's words, for comparison with the code's combining
loop: the separator inserted exactly once between consecutive sources and
never as a leading or trailing boundary. -/
def specJoin (sep : List Nat) : List (List Nat) → List Nat
  | [] => []
  | [d] => d
  | d :: e :: rest => d ++ sep ++ specJoin sep (e :: rest)

/-- Outcome of the startup phase of `run`: either the process reports the
read error and `main` exits non-zero before `net.Listen` runs, or the
combined content is installed and the server starts (lines 96-116). -/
inductive StartOutcome where
  | fatalExit
  | serverStart (content : List Nat)
deriving DecidableEq

/-- Startup of `run` on the list of per-argument read results. -/
def startupOutcome (reads : List (Option (List Nat))) : StartOutcome :=
  match combineStartup reads with
  | none => StartOutcome.fatalExit
  | some c => StartOutcome.serverStart c

/-- Process exit code produced by `main` (lines 60-65): `run` returning an
error yields `os.Exit(1)`; `some 1` is that immediate non-zero exit, `none`
means the server phase was reached. -/
def exitCode : StartOutcome → Option Nat
  | StartOutcome.fatalExit => some 1
  | StartOutcome.serverStart _ => none

/-- Events visible to the viewer-drain goroutine of `run` (lines 159-192):
a viewer subscribing (`clients[ch] = struct{}{}` in `handleSSE`), a viewer
unsubscribing (`delete(clients, ch)`), and one 500ms sampling check of
`len(clients)`. -/
inductive Ev where
  | sub
  | unsub
  | tick
deriving DecidableEq

/-- State of the drain goroutine together with the registry size it
samples: `count` is `len(clients)`; `connectedOnce` records that some
sample already observed `count > 0` (the `break` out of the first loop);
`fired` records that `close(disconnectCh)` ran, which makes `run` shut the
server down. -/
structure MState where
  count : Nat
  connectedOnce : Bool
  fired : Bool
deriving DecidableEq

/-- Initial state: empty `clients` map, goroutine in its first loop, the
disconnect channel open. -/
def initMState : MState := ⟨0, false, false⟩

/-- One event of the drain goroutine.  A `tick` in the first loop breaks
out when the sampled count is positive; a `tick` in the second loop closes
`disconnectCh` as soon as the sampled count is zero. -/
def stepEv (s : MState) : Ev → MState
  | Ev.sub => { s with count := s.count + 1 }
  | Ev.unsub => { s with count := s.count - 1 }
  | Ev.tick =>
    if s.fired then s
    else if s.connectedOnce then
      if s.count = 0 then { s with fired := true } else s
    else
      if s.count > 0 then { s with connectedOnce := true } else s

/-- Run the drain goroutine over a sequence of events. -/
def runEvs (s : MState) (evs : List Ev) : MState :=
  evs.foldl stepEv s

/-- Non-blocking send into one viewer's reload channel
(`ch := make(chan struct{}, 1)`, sent to by the `select`/`default` of
`notifyClients`): the slot holds the number of undelivered signals. -/
def trySendReload (slot : Nat) : Nat :=
  if slot < 1 then slot + 1 else slot

/-- The fan-out of `notifyClients` (lines 340-349) over the channel slots
of the registered clients. -/
def notifyClients (clients : List Nat) : List Nat :=
  clients.map trySendReload

/-- Startup of the change detector (`watchFiles` lines 352-363): record the
modification time of every path whose stat succeeds (`stat0 p = none` is a
failing `filepath.Abs` or `os.Stat`, skipped with `continue`).  The Go map
is modelled as the association list in path order. -/
def initModTimes (paths : List String) (stat0 : String → Option Nat) :
    List (String × Nat) :=
  paths.filterMap (fun p => (stat0 p).map (fun t => (p, t)))

/-- One entry of one poll tick of `watchFiles` (lines 374-383): a failing
stat is skipped; a modification time strictly after the recorded one
updates the entry and sets the `changed` flag. -/
def tickStep (stat : String → Option Nat)
    (acc : List (String × Nat) × Bool) (e : String × Nat) :
    List (String × Nat) × Bool :=
  match stat e.1 with
  | none => (acc.1 ++ [e], acc.2)
  | some t => if e.2 < t then (acc.1 ++ [(e.1, t)], true) else (acc.1 ++ [e], acc.2)

/-- One poll tick of `watchFiles` over the recorded modification times,
returning the updated times and the `changed` flag. -/
def tickDetect (mt : List (String × Nat)) (stat : String → Option Nat) :
    List (String × Nat) × Bool :=
  mt.foldl (tickStep stat) ([], false)

/-- The updated entry for one recorded path after a tick. -/
def entryUpdate (stat : String → Option Nat) (e : String × Nat) : String × Nat :=
  match stat e.1 with
  | none => e
  | some t => if e.2 < t then (e.1, t) else e

/-- Whether one recorded path contributes to the `changed` flag of a tick:
its stat succeeds and its modification time strictly advanced. -/
def entryChanged (stat : String → Option Nat) (e : String × Nat) : Bool :=
  match stat e.1 with
  | none => false
  | some t => decide (e.2 < t)

/-- One iteration of the ticker loop of `watchFiles`: update the recorded
times and count the cycle when its `changed` flag re-read the sources and
called `notifyClients`. -/
def runTicksStep (acc : List (String × Nat) × Nat)
    (stat : String → Option Nat) : List (String × Nat) × Nat :=
  ((tickDetect acc.1 stat).1,
    acc.2 + (if (tickDetect acc.1 stat).2 then 1 else 0))

/-- The ticker loop of `watchFiles` (lines 368-403) over a sequence of
per-tick file-system states: the final recorded times, and how many cycles
re-read the sources and called `notifyClients`. -/
def runTicks (mt : List (String × Nat)) (stats : List (String → Option Nat)) :
    List (String × Nat) × Nat :=
  stats.foldl runTicksStep (mt, 0)

/-- The watched paths recorded in the modification-time map. -/
def keysOf (mt : List (String × Nat)) : List String :=
  mt.map Prod.fst

/-- Where the input of a session comes from (`run` lines 79-113): the
anonymous stdin stream, or explicitly named paths. -/
inductive InputSource where
  | stdinStream (data : List Nat)
  | namedPaths (paths : List String)

/-- The global `filePath` after startup: `""` for stdin (line 89), the
first named argument otherwise (line 110). -/
def initialFilePath : InputSource → String
  | InputSource.stdinStream _ => ""
  | InputSource.namedPaths paths => paths.headD ""

/-- The guard `if filePath != "" { go watchFiles(ctx, args) }` of `run`
(lines 153-156). -/
def watcherStarted (src : InputSource) : Bool :=
  initialFilePath src != ""

/-- Change notifications delivered to viewers over a session: the watcher's
notify count when the watcher goroutine was started, none at all
otherwise (no other code path calls `notifyClients`). -/
def sessionChangeSignals (src : InputSource) (mt0 : List (String × Nat))
    (stats : List (String → Option Nat)) : Nat :=
  if watcherStarted src then (runTicks mt0 stats).2 else 0

/-- Operations on the document store: `watchFiles` installing a new
snapshot under `mu.Lock` (lines 397-399) and `renderMarkdown` reading the
current one under `mu.RLock` (lines 208-210).  The mutex makes each
operation atomic, so the store's behaviour is the sequential interleaving
semantics over these operations. -/
inductive StoreOp where
  | install (s : List Nat)
  | readOp

/-- The snapshots actually installed by a sequence of store operations. -/
def installedValues : List StoreOp → List (List Nat)
  | [] => []
  | StoreOp.install s :: ops => s :: installedValues ops
  | StoreOp.readOp :: ops => installedValues ops

/-- Run a sequence of store operations from an initial snapshot, returning
the final snapshot and the list of bytes returned by the reads, in
order. -/
def storeRun : List Nat → List StoreOp → List Nat × List (List Nat)
  | cur, [] => (cur, [])
  | _, StoreOp.install s :: ops => storeRun s ops
  | cur, StoreOp.readOp :: ops =>
    ((storeRun cur ops).1, cur :: (storeRun cur ops).2)

/-- Helper definition for witnesses: a file-system state in which path `b`
fails to stat and every other path has modification time 3. -/
def statNoB : String → Option Nat :=
  fun q => if q = "b" then none else some 3

end Mdview

namespace Mdview

theorem combineSources_nil : combineSources [] = [] := rfl

/-- Helper: once the accumulator is non-empty, the combining loop appends
the separator before every remaining source. -/
theorem foldl_combineStep_ne (rest : List (List Nat)) :
    ∀ d : List Nat, d ≠ [] →
      List.foldl combineStep d rest = specJoin sepBytes (d :: rest) := by
  induction rest with
  | nil => intro d _; rfl
  | cons e tl ih =>
    intro d hd
    have hlen : d.length > 0 := List.length_pos.mpr hd
    have hstep : combineStep d e = (d ++ sepBytes) ++ e := by
      simp [combineStep, hlen]
    have hne : (d ++ sepBytes) ++ e ≠ [] := by
      simp [sepBytes]
    calc List.foldl combineStep d (e :: tl)
        = List.foldl combineStep ((d ++ sepBytes) ++ e) tl := by
          simp [List.foldl_cons, hstep]
      _ = specJoin sepBytes (((d ++ sepBytes) ++ e) :: tl) := ih _ hne
      _ = specJoin sepBytes (d :: e :: tl) := by
          cases tl with
          | nil => simp [specJoin]
          | cons f fl => simp [specJoin, List.append_assoc]

/-- Helper: mapping `some` over sources turns the refresh loop into the
plain combining loop. -/
theorem combineLoop_map_some (srcs : List (List Nat)) :
    combineLoop (srcs.map some) = combineSources srcs := by
  simp [combineLoop, combineSources, List.foldl_map, combineStepOpt]

/-- Helper: when every read succeeds, the startup loop combines all
sources. -/
theorem combineStartupAux_map_some (srcs : List (List Nat)) :
    ∀ acc : List Nat,
      combineStartupAux acc (srcs.map some) = some (List.foldl combineStep acc srcs) := by
  induction srcs with
  | nil => intro acc; rfl
  | cons d tl ih => intro acc; simp [combineStartupAux, List.foldl_cons, ih]

/-- C1 counterexample: reading sources `"# A"` and `""` (an empty but
readable file), the combining loop appends the separator before the empty
source, producing `"# A\n\n"` — a trailing boundary attributed to the
empty source; with `"# A"`, `""`, `"# B"` the separator bytes appear twice
between the two consecutive non-empty sources.  This refutes the claim
that the separator is never a trailing boundary and never attributed to an
empty source. -/
theorem combine_empty_source_trailing_sep :
    combineSources [[35, 32, 65], []] = [35, 32, 65, 10, 10] ∧
    combineSources [[35, 32, 65], [], [35, 32, 66]] =
      [35, 32, 65, 10, 10, 10, 10, 35, 32, 66] := by
  constructor <;> rfl

/-- C1 (amended): the separator is appended before a source exactly when
the accumulated combination is already non-empty; hence for source lists
whose sources are all non-empty, the combined snapshot equals the
spec-side join — the two-byte separator exactly once between consecutive
sources, never leading or trailing.  The same loop body runs at startup
(`combineStartup`) and on every detected change (`combineLoop`). -/
theorem combine_join_nonempty (srcs : List (List Nat))
    (h : ∀ d ∈ srcs, d ≠ []) :
    combineSources srcs = specJoin sepBytes srcs ∧
    combineLoop (srcs.map some) = combineSources srcs ∧
    combineStartup (srcs.map some) = some (combineSources srcs) := by
  refine ⟨?_, combineLoop_map_some srcs, ?_⟩
  · cases srcs with
    | nil => rfl
    | cons d tl =>
      have hd : d ≠ [] := h d (List.mem_cons_self d tl)
      have h0 : combineStep [] d = d := by simp [combineStep]
      calc combineSources (d :: tl)
          = List.foldl combineStep d tl := by
            simp [combineSources, List.foldl_cons, h0]
        _ = specJoin sepBytes (d :: tl) := foldl_combineStep_ne tl d hd
  · simpa [combineStartup, combineSources] using combineStartupAux_map_some srcs []

/-- C1 witness: sources `"# A"` and `"# B"` (both non-empty) combine to
`"# A\n\n# B"`. -/
theorem combine_join_nonempty_witness :
    combineSources [[35, 32, 65], [35, 32, 66]] = [35, 32, 65, 10, 10, 35, 32, 66] := by
  have h := combine_join_nonempty [[35, 32, 65], [35, 32, 66]]
    (by intro d hd; fin_cases hd <;> simp)
  rw [h.1]
  rfl

/-- C6: a failed read in the refresh loop of `watchFiles` only omits that
path's bytes — the combined snapshot equals the combination of the
remaining reads, and the cycle itself is a total function (it never
aborts); concretely, with source 2 of 3 unreadable, sources `"# 1"` and
`"# 3"` are still joined as `"# 1\n\n# 3"`.  A later cycle in which the
read succeeds again contributes the path's bytes as usual, since the
snapshot is recomputed from the current reads alone. -/
theorem refresh_skips_failed_read :
    (∀ l1 l2 : List (Option (List Nat)),
      combineLoop (l1 ++ none :: l2) = combineLoop (l1 ++ l2)) ∧
    combineLoop [some [35, 32, 49], none, some [35, 32, 51]] =
      [35, 32, 49, 10, 10, 35, 32, 51] := by
  constructor
  · intro l1 l2
    simp [combineLoop, List.foldl_append, List.foldl_cons, combineStepOpt]
  · rfl

/-- C8: if any explicitly named input file fails to read, the startup loop
of `run` returns an error before any server state is created, and `main`
exits with status 1. -/
theorem startup_read_failure_fatal (reads : List (Option (List Nat)))
    (h : none ∈ reads) :
    startupOutcome reads = StartOutcome.fatalExit ∧
    exitCode (startupOutcome reads) = some 1 := by
  have key : ∀ rs : List (Option (List Nat)), none ∈ rs →
      ∀ acc : List Nat, combineStartupAux acc rs = none := by
    intro rs hrs
    induction rs with
    | nil => cases hrs
    | cons r tl ih =>
      intro acc
      cases r with
      | none => rfl
      | some d =>
        have htl : none ∈ tl := by
          rcases List.mem_cons.mp hrs with h1 | h1
          · exact absurd h1.symm (Option.some_ne_none d)
          · exact h1
        simp [combineStartupAux, ih htl]
  have hout : startupOutcome reads = StartOutcome.fatalExit := by
    simp [startupOutcome, combineStartup, key reads h []]
  exact ⟨hout, by rw [hout]; rfl⟩

/-- C8 witness: with the first file read ok and the second failing, the
process takes the fatal-exit path with exit code 1. -/
theorem startup_read_failure_fatal_witness :
    startupOutcome [some [104], none] = StartOutcome.fatalExit ∧
    exitCode (startupOutcome [some [104], none]) = some 1 :=
  startup_read_failure_fatal [some [104], none] (by simp)

/-- C4: one `notifyClients` fan-out over a registry of single-slot reload
channels (each slot holding at most its capacity of one undelivered
signal) leaves every registered channel with exactly one pending signal:
an empty slot is filled, a full slot keeps its one signal and the new one
is dropped rather than queued.  The send is the total function
`trySendReload` — the `select`/`default` never blocks. -/
theorem notify_fills_every_slot (clients : List Nat)
    (hinv : ∀ c ∈ clients, c ≤ 1) :
    (notifyClients clients).length = clients.length ∧
    ∀ c ∈ notifyClients clients, c = 1 := by
  constructor
  · simp [notifyClients]
  · intro c hc
    rcases List.mem_map.mp hc with ⟨x, hx, hxc⟩
    have hx1 : x ≤ 1 := hinv x hx
    subst hxc
    unfold trySendReload
    split <;> omega

/-- C4 witness: three subscribers, one of them with an undelivered signal,
all hold exactly one pending signal after a single notify. -/
theorem notify_fills_every_slot_witness :
    (notifyClients [0, 1, 0]).length = 3 := by
  have h := (notify_fills_every_slot [0, 1, 0] (by intro c hc; fin_cases hc <;> omega)).1
  simpa using h

/-- Helper: every event of the drain goroutine preserves a fired
disconnect signal (`close(disconnectCh)` is irreversible). -/
theorem stepEv_fired (s : MState) (h : s.fired = true) (e : Ev) :
    (stepEv s e).fired = true := by
  cases e <;> simp [stepEv, h]

/-- Helper: once the disconnect signal has fired, it stays fired over any
sequence of events. -/
theorem runEvs_fired (evs : List Ev) :
    ∀ s : MState, s.fired = true → (runEvs s evs).fired = true := by
  induction evs with
  | nil => intro s h; exact h
  | cons e tl ih =>
    intro s h
    exact ih (stepEv s e) (stepEv_fired s h e)

/-- C2 counterexample: a viewer subscribes and is sampled (`count > 0`
breaks the first loop), disconnects, and the very next sampling check
observes zero — the goroutine closes `disconnectCh` at that single zero
sample.  A new subscribe arriving between that first zero sample and the
next sample does not cancel anything: the monitor has already fired even
though a viewer is connected again.  This refutes the claim that
termination requires zero population across two consecutive sampling
checks and that such a subscribe returns the state to Active. -/
theorem drain_single_sample_fires :
    (runEvs initMState [Ev.sub, Ev.tick, Ev.unsub, Ev.tick, Ev.sub, Ev.tick]).fired
      = true ∧
    (runEvs initMState [Ev.sub, Ev.tick, Ev.unsub, Ev.tick, Ev.sub, Ev.tick]).count
      = 1 := by
  constructor <;> rfl

/-- C2 (amended): once some sampling check has observed a nonzero viewer
population, a single later sampling check that observes zero population
fires the shutdown trigger, and the trigger is permanent — no event after
that sample (in particular no subscribe) cancels it.  A subscribe prevents
shutdown only by restoring a nonzero population before the zero-observing
sample. -/
theorem drain_fires_on_single_zero_sample (s : MState) (evs : List Ev)
    (hc : s.connectedOnce = true) (hf : s.fired = false) (h0 : s.count = 0) :
    (runEvs s (Ev.tick :: evs)).fired = true := by
  have hstep : stepEv s Ev.tick = { s with fired := true } := by
    simp [stepEv, hc, hf, h0]
  have : runEvs s (Ev.tick :: evs) = runEvs { s with fired := true } evs := by
    simp [runEvs, List.foldl_cons, hstep]
  rw [this]
  exact runEvs_fired evs _ rfl

/-- C2 witness: from a drained state (a viewer was sampled earlier, none
is connected now), one tick fires the trigger and a following subscribe
does not unfire it. -/
theorem drain_fires_on_single_zero_sample_witness :
    (runEvs ⟨0, true, false⟩ [Ev.tick, Ev.sub]).fired = true :=
  drain_fires_on_single_zero_sample ⟨0, true, false⟩ [Ev.sub] rfl rfl rfl

/-- C3: a session in which no viewer ever subscribes never takes the
drain-based shutdown path: starting from the initial state, any sequence
of sampling ticks and (vacuous) unsubscribes leaves the goroutine in its
first loop with the disconnect signal unfired. -/
theorem idle_never_fires_drain (evs : List Ev) (h : Ev.sub ∉ evs) :
    (runEvs initMState evs).fired = false := by
  have key : ∀ l : List Ev, Ev.sub ∉ l →
      ∀ s : MState, s.count = 0 → s.connectedOnce = false → s.fired = false →
      runEvs s l = s := by
    intro l
    induction l with
    | nil => intro _ s _ _ _; rfl
    | cons e tl ih =>
      intro hl s h1 h2 h3
      have he : e ≠ Ev.sub := fun hes => hl (hes ▸ List.mem_cons_self e tl)
      have htl : Ev.sub ∉ tl := fun hm => hl (List.mem_cons_of_mem e hm)
      have hfix : stepEv s e = s := by
        cases e with
        | sub => exact absurd rfl he
        | unsub =>
          cases s with
          | mk c co f => simp_all [stepEv]
        | tick => simp [stepEv, h1, h2, h3]
      calc runEvs s (e :: tl) = runEvs (stepEv s e) tl := rfl
        _ = runEvs s tl := by rw [hfix]
        _ = s := ih htl s h1 h2 h3
  rw [key evs h initMState rfl rfl rfl]
  rfl

/-- C3 witness: five sampling ticks with no subscribe (and a vacuous
unsubscribe) never fire the drain trigger. -/
theorem idle_never_fires_drain_witness :
    (runEvs initMState [Ev.tick, Ev.tick, Ev.unsub, Ev.tick, Ev.tick, Ev.tick]).fired
      = false :=
  idle_never_fires_drain [Ev.tick, Ev.tick, Ev.unsub, Ev.tick, Ev.tick, Ev.tick]
    (by decide)

/-- C7: under the sequential interleaving semantics induced by the
`mu` read/write lock (each install and each read is atomic), every read of
the document store returns, whole, either the startup snapshot or one of
the snapshots actually installed — never a byte-level mixture of two. -/
theorem store_reads_return_installed (init : List Nat) (ops : List StoreOp)
    (r : List Nat) (hr : r ∈ (storeRun init ops).2) :
    r = init ∨ r ∈ installedValues ops := by
  induction ops generalizing init with
  | nil => cases hr
  | cons op tl ih =>
    cases op with
    | install s =>
      have hr' : r ∈ (storeRun s tl).2 := hr
      rcases ih s hr' with h1 | h1
      · exact Or.inr (h1 ▸ List.mem_cons_self s (installedValues tl))
      · exact Or.inr (List.mem_cons_of_mem s h1)
    | readOp =>
      rcases List.mem_cons.mp hr with h1 | h1
      · exact Or.inl h1
      · exact ih init h1

/-- C7 witness: after installing `[2]` over initial `[1]`, a read returns
`[2]`, one of the installed snapshots. -/
theorem store_reads_return_installed_witness :
    ([2] : List Nat) = [1] ∨
      ([2] : List Nat) ∈ installedValues [StoreOp.install [2], StoreOp.readOp] :=
  store_reads_return_installed [1] [StoreOp.install [2], StoreOp.readOp] [2]
    (by simp [storeRun])

/-- C9: when the input is the anonymous stdin stream, `filePath` is empty,
so the watcher goroutine is never started and no change notification is
ever produced for the lifetime of the session, whatever the file system
does at any number of poll instants. -/
theorem stdin_no_watcher (data : List Nat) (mt0 : List (String × Nat))
    (stats : List (String → Option Nat)) :
    watcherStarted (InputSource.stdinStream data) = false ∧
    sessionChangeSignals (InputSource.stdinStream data) mt0 stats = 0 := by
  constructor
  · rfl
  · simp [sessionChangeSignals, watcherStarted, initialFilePath]

/-- Helper: a path and time are recorded at detector startup exactly when
the path is watched and its initial stat returned that time. -/
theorem mem_initModTimes (paths : List String) (stat0 : String → Option Nat)
    (p : String) (t0 : Nat) :
    (p, t0) ∈ initModTimes paths stat0 ↔ p ∈ paths ∧ stat0 p = some t0 := by
  simp only [initModTimes, List.mem_filterMap]
  constructor
  · rintro ⟨a, ha, hmap⟩
    rcases Option.map_eq_some'.mp hmap with ⟨t, hst, heq⟩
    simp only [Prod.mk.injEq] at heq
    obtain ⟨rfl, rfl⟩ := heq
    exact ⟨ha, hst⟩
  · rintro ⟨hp, hst⟩
    exact ⟨p, hp, by rw [hst]; rfl⟩

/-- Helper: closed form of the poll-tick fold — the updated entries in
order, and the `changed` flag as an `any` over the entries. -/
theorem foldl_tickStep (stat : String → Option Nat) (mt : List (String × Nat)) :
    ∀ acc : List (String × Nat) × Bool,
      List.foldl (tickStep stat) acc mt =
        (acc.1 ++ mt.map (entryUpdate stat), acc.2 || mt.any (entryChanged stat)) := by
  induction mt with
  | nil => intro acc; simp
  | cons e tl ih =>
    intro acc
    rw [List.foldl_cons, ih]
    rcases hse : stat e.1 with _ | t
    · simp [tickStep, entryUpdate, entryChanged, hse]
    · by_cases hlt : e.2 < t
      · simp [tickStep, entryUpdate, entryChanged, hse, hlt]
      · simp [tickStep, entryUpdate, entryChanged, hse, hlt]

/-- Helper: the two components of one poll tick. -/
theorem tickDetect_eq (mt : List (String × Nat)) (stat : String → Option Nat) :
    tickDetect mt stat = (mt.map (entryUpdate stat), mt.any (entryChanged stat)) := by
  simpa [tickDetect] using foldl_tickStep stat mt ([], false)

/-- Helper: an entry trips the `changed` flag exactly when its stat
succeeds with a strictly later modification time. -/
theorem entryChanged_eq_true (stat : String → Option Nat) (e : String × Nat) :
    entryChanged stat e = true ↔ ∃ t1, stat e.1 = some t1 ∧ e.2 < t1 := by
  rcases hse : stat e.1 with _ | t <;> simp [entryChanged, hse]

/-- Helper: the `changed` flag of one poll tick holds exactly when some
recorded path's modification time strictly advanced. -/
theorem tickDetect_changed_iff (mt : List (String × Nat))
    (stat : String → Option Nat) :
    (tickDetect mt stat).2 = true ↔
      ∃ p t0 t1, (p, t0) ∈ mt ∧ stat p = some t1 ∧ t0 < t1 := by
  rw [tickDetect_eq]
  simp only [List.any_eq_true]
  constructor
  · rintro ⟨⟨p, t0⟩, hmem, hchg⟩
    rcases (entryChanged_eq_true stat (p, t0)).mp hchg with ⟨t1, hst, hlt⟩
    exact ⟨p, t0, t1, hmem, hst, hlt⟩
  · rintro ⟨p, t0, t1, hmem, hst, hlt⟩
    exact ⟨(p, t0), hmem, (entryChanged_eq_true stat (p, t0)).mpr ⟨t1, hst, hlt⟩⟩

/-- C5: the detector records, for every watched path whose startup stat
succeeds, that modification time as a baseline (first conjunct), and a
poll tick reports a change exactly when some recorded path's modification
time strictly advances past its recorded value (second conjunct).  In
particular, when every watched path's modification time at the first tick
is at most its baseline — as it is for files last modified before the
detector started — the first tick fires no change notification; only a
strictly later modification fires one. -/
theorem detector_baseline_strict_advance (paths : List String)
    (stat0 stat1 : String → Option Nat) :
    (∀ p t0, ((p, t0) ∈ initModTimes paths stat0 ↔ p ∈ paths ∧ stat0 p = some t0)) ∧
    ((tickDetect (initModTimes paths stat0) stat1).2 = true ↔
      ∃ p t0 t1, (p, t0) ∈ initModTimes paths stat0 ∧ stat1 p = some t1 ∧ t0 < t1) :=
  ⟨fun p t0 => mem_initModTimes paths stat0 p t0,
    tickDetect_changed_iff (initModTimes paths stat0) stat1⟩

/-- C5 witness: a path baselined at time 3 whose modification time has
advanced to 7 by the first tick fires a change. -/
theorem detector_baseline_strict_advance_witness :
    (tickDetect (initModTimes ["a"] (fun _ => some 3)) (fun _ => some 7)).2 = true := by
  have h := detector_baseline_strict_advance ["a"] (fun _ => some 3) (fun _ => some 7)
  exact h.2.mpr ⟨"a", 3, 7, (h.1 "a" 3).mpr ⟨by simp, rfl⟩, rfl, by omega⟩

/-- Helper: a poll tick never changes which path an entry records. -/
theorem entryUpdate_fst (stat : String → Option Nat) (e : String × Nat) :
    (entryUpdate stat e).1 = e.1 := by
  rcases hse : stat e.1 with _ | t
  · simp [entryUpdate, hse]
  · by_cases hlt : e.2 < t <;> simp [entryUpdate, hse, hlt]

/-- Helper: a poll tick preserves the set of recorded paths, in order. -/
theorem keysOf_tickDetect (mt : List (String × Nat)) (stat : String → Option Nat) :
    keysOf (tickDetect mt stat).1 = keysOf mt := by
  rw [tickDetect_eq]
  simp only [keysOf, List.map_map]
  exact List.map_congr_left fun e _ => entryUpdate_fst stat e

/-- Helper: the whole ticker loop preserves the set of recorded paths. -/
theorem keysOf_runTicks_aux (stats : List (String → Option Nat)) :
    ∀ acc : List (String × Nat) × Nat,
      keysOf (List.foldl runTicksStep acc stats).1 = keysOf acc.1 := by
  induction stats with
  | nil => intro acc; rfl
  | cons f tl ih =>
    intro acc
    rw [List.foldl_cons, ih]
    simp [runTicksStep, keysOf_tickDetect]

/-- Helper: the `changed` flag of an entry depends only on the stat of its
own recorded path. -/
theorem entryChanged_congr (f g : String → Option Nat) (e : String × Nat)
    (h : f e.1 = g e.1) : entryChanged f e = entryChanged g e := by
  unfold entryChanged
  rw [h]

/-- Helper: the update of an entry depends only on the stat of its own
recorded path. -/
theorem entryUpdate_congr (f g : String → Option Nat) (e : String × Nat)
    (h : f e.1 = g e.1) : entryUpdate f e = entryUpdate g e := by
  unfold entryUpdate
  rw [h]

/-- Helper: the `any` over entries depends only on stats of recorded
paths. -/
theorem any_entryChanged_congr (f g : String → Option Nat) :
    ∀ mt : List (String × Nat), (∀ q ∈ keysOf mt, f q = g q) →
      mt.any (entryChanged f) = mt.any (entryChanged g) := by
  intro mt
  induction mt with
  | nil => intro _; rfl
  | cons e tl ih =>
    intro h
    have he : f e.1 = g e.1 := h e.1 (by simp [keysOf])
    have htl : ∀ q ∈ keysOf tl, f q = g q := by
      intro q hq
      apply h
      simp only [keysOf, List.map_cons]
      exact List.mem_cons_of_mem _ hq
    simp [List.any_cons, ih htl, entryChanged_congr f g e he]

/-- Helper: one poll tick depends only on the stats of the recorded
paths. -/
theorem tickDetect_congr (mt : List (String × Nat)) (f g : String → Option Nat)
    (h : ∀ q ∈ keysOf mt, f q = g q) : tickDetect mt f = tickDetect mt g := by
  rw [tickDetect_eq, tickDetect_eq]
  simp only [Prod.mk.injEq]
  constructor
  · exact List.map_congr_left fun e he =>
      entryUpdate_congr f g e (h e.1 (List.mem_map_of_mem Prod.fst he))
  · exact any_entryChanged_congr f g mt h

/-- Helper: when a path is not recorded, the whole ticker loop is
unaffected by that path's stats. -/
theorem runTicks_congr_off (p : String)
    (stats stats' : List (String → Option Nat))
    (hff : List.Forall₂ (fun f g => ∀ q, q ≠ p → f q = g q) stats stats') :
    ∀ acc : List (String × Nat) × Nat, p ∉ keysOf acc.1 →
      List.foldl runTicksStep acc stats = List.foldl runTicksStep acc stats' := by
  induction hff with
  | nil => intro acc _; rfl
  | @cons f g tl tl' hfg htl ih =>
    intro acc hpacc
    have hagree : ∀ q ∈ keysOf acc.1, f q = g q := fun q hq =>
      hfg q (fun hqp => hpacc (hqp ▸ hq))
    have hstep : runTicksStep acc f = runTicksStep acc g := by
      simp [runTicksStep, tickDetect_congr acc.1 f g hagree]
    rw [List.foldl_cons, List.foldl_cons, hstep]
    apply ih
    show p ∉ keysOf (tickDetect acc.1 g).1
    rw [keysOf_tickDetect]
    exact hpacc

/-- Helper: the refresh combine only ever appends to its accumulator. -/
theorem foldl_combineStepOpt_grows (reads : List (Option (List Nat))) :
    ∀ acc : List Nat, ∃ w, List.foldl combineStepOpt acc reads = acc ++ w := by
  induction reads with
  | nil => intro acc; exact ⟨[], by simp⟩
  | cons r tl ih =>
    intro acc
    rcases ih (combineStepOpt acc r) with ⟨w, hw⟩
    rw [List.foldl_cons, hw]
    cases r with
    | none => exact ⟨w, rfl⟩
    | some d =>
      by_cases hlen : acc.length > 0
      · exact ⟨sepBytes ++ (d ++ w), by simp [combineStepOpt, combineStep, hlen]⟩
      · exact ⟨d ++ w, by simp [combineStepOpt, combineStep, hlen]⟩

/-- Helper: a successfully read source's bytes appear contiguously in the
combined refresh snapshot. -/
theorem combineLoop_contains_aux (d : List Nat) :
    ∀ reads : List (Option (List Nat)), some d ∈ reads →
      ∀ acc : List Nat, ∃ u v, List.foldl combineStepOpt acc reads = u ++ (d ++ v) := by
  intro reads
  induction reads with
  | nil => intro h; cases h
  | cons r tl ih =>
    intro hmem acc
    rcases List.mem_cons.mp hmem with h1 | h1
    · cases h1
      rcases foldl_combineStepOpt_grows tl (combineStepOpt acc (some d)) with ⟨w, hw⟩
      rw [List.foldl_cons, hw]
      by_cases hlen : acc.length > 0
      · exact ⟨acc ++ sepBytes, w, by simp [combineStepOpt, combineStep, hlen]⟩
      · exact ⟨acc, w, by simp [combineStepOpt, combineStep, hlen]⟩
    · rcases ih h1 (combineStepOpt acc r) with ⟨u, v, huv⟩
      exact ⟨u, v, by rw [List.foldl_cons, huv]⟩

/-- C10: a watched path whose initial stat (or absolute-path resolution)
fails is permanently excluded from the modification-time map: it is absent
after any number of poll ticks (first conjunct), and the whole ticker
loop — updated times and number of change cycles alike — is unaffected by
that path's stats at every later tick, so no later modification of it ever
triggers a change detection (second conjunct); yet the path is still
re-read into every refreshed snapshot, its bytes appearing contiguously
whenever its read succeeds (third conjunct). -/
theorem init_stat_failure_permanent (paths : List String)
    (stat0 : String → Option Nat) (p : String)
    (hp : p ∈ paths) (h0 : stat0 p = none) :
    (∀ stats : List (String → Option Nat),
      p ∉ keysOf (runTicks (initModTimes paths stat0) stats).1) ∧
    (∀ stats stats' : List (String → Option Nat),
      List.Forall₂ (fun f g => ∀ q, q ≠ p → f q = g q) stats stats' →
      runTicks (initModTimes paths stat0) stats
        = runTicks (initModTimes paths stat0) stats') ∧
    (∀ readF : String → Option (List Nat), ∀ d, readF p = some d →
      ∃ u v, combineLoop (paths.map readF) = u ++ (d ++ v)) := by
  have hnotin : p ∉ keysOf (initModTimes paths stat0) := by
    intro hmem
    rcases List.mem_map.mp hmem with ⟨⟨q, t⟩, hqt, hq⟩
    cases hq
    have hsome := ((mem_initModTimes paths stat0 q t).mp hqt).2
    rw [h0] at hsome
    cases hsome
  refine ⟨?_, ?_, ?_⟩
  · intro stats
    rw [runTicks, keysOf_runTicks_aux stats (initModTimes paths stat0, 0)]
    exact hnotin
  · intro stats stats' hff
    exact runTicks_congr_off p stats stats' hff (initModTimes paths stat0, 0) hnotin
  · intro readF d hread
    exact combineLoop_contains_aux d (paths.map readF)
      (List.mem_map.mpr ⟨p, hp, hread⟩) []

/-- C10 witness: path `b` fails its startup stat, so after one tick it is
still absent from the recorded modification times. -/
theorem init_stat_failure_permanent_witness :
    "b" ∉ keysOf (runTicks (initModTimes ["a", "b"] statNoB) [statNoB]).1 :=
  (init_stat_failure_permanent ["a", "b"] statNoB "b" (by simp)
    (by simp [statNoB])).1 [statNoB]

end Mdview
